import Mathlib

/-!
Verification of the classification-and-rule-application pipeline of the
impedance-control-layout-guide repository.

The development shallowly embeds the four core components under
`src/core`: the classes `NetlistParser`, `NetClassifier`, `RuleEngine`
and `TemplateMapper`.
Python strings are modelled as `List Char` (code-point sequences, which is
also how Python compares strings); Python dicts with insertion order are
modelled as association lists; a `.get(key, default)`-style optional field
is modelled as `Option` with `Option.getD`.
-/

namespace ImpedanceGuide

/-- A Python string, as its sequence of code points. -/
abbrev Str := List Char

/-- Coerce a Lean string literal to the model type. -/
def str (s : String) : Str := s.toList

/-- Python `s.upper()` restricted to ASCII case mapping (the net names and
rule keywords of this domain are ASCII). -/
def pyUpper (s : Str) : Str := s.map Char.toUpper

/-- Python `s.lower()` restricted to ASCII case mapping. -/
def pyLower (s : Str) : Str := s.map Char.toLower

/-- Python substring containment `needle in hay`. -/
def containsSub (needle : Str) : Str → Bool
  | [] => needle.isEmpty
  | c :: t => needle.isPrefixOf (c :: t) || containsSub needle t

/-! ## NetClassifier (`src/core`)

A configured regex pattern is modelled by what the classifier observes of it:
either it compiles, in which case `re.search(pattern, net, re.IGNORECASE)`
is some boolean function of the net name, or compiling it raises `re.error`,
which `_matches_rule` catches, logs and skips. -/

inductive RePattern where
  /-- A pattern that compiles; `m net` is the truth of
  `re.search(pattern, net, re.IGNORECASE)`. -/
  | ok (m : Str → Bool)
  /-- A pattern whose compilation raises `re.error`. -/
  | err

/-- The contribution of one configured pattern inside the pattern loop of
`_matches_rule`: a match for a compiled pattern, and `False` (skip, after
logging a warning) for a pattern that raises `re.error`. -/
def RePattern.search (net : Str) : RePattern → Bool
  | .ok m => m net
  | .err => false

/-- Whether a pattern raises `re.error` on compilation. -/
def RePattern.isErr : RePattern → Bool
  | .ok _ => false
  | .err => true

/-- One classification-rule configuration dict. Fields the code reads with
`rule_config.get(key, default)` are `Option`s; a key absent from the dict is
`none`. The `enabled` key of the configuration schema is carried so that
theorems can speak about it. -/
structure RuleConfig where
  keywords : List Str := []
  patterns : List RePattern := []
  exact_matches : List Str := []
  category : Option Str := none
  signal_type : Option Str := none
  priority : Option Int := none
  enabled : Option Bool := none

/-- Model of `NetClassifier._matches_rule`: keyword containment (case-insensitive),
then regex search (case-insensitive, `re.error` patterns skipped), then
exact equality (case-insensitive); any one hit matches the rule. -/
def matches_rule (net_name : Str) (rule_config : RuleConfig) : Bool :=
  rule_config.keywords.any (fun keyword => containsSub (pyUpper keyword) (pyUpper net_name)) ||
  rule_config.patterns.any (fun p => p.search net_name) ||
  rule_config.exact_matches.any (fun exact => pyUpper net_name == pyUpper exact)

/-- The classification dict returned by `NetClassifier._classify_single_net`. -/
structure Classification where
  category : Str
  signal_type : Str
  rule_matched : Str
  priority : Int
deriving DecidableEq

/-- Model of `NetClassifier._classify_single_net`: try the rules of the
(insertion-ordered) rule mapping in order; the first rule for which
`_matches_rule` holds supplies the classification, with `.get` defaults for
its absent fields; if no rule matches, return the default classification. -/
def classify_single_net (rules : List (Str × RuleConfig)) (net_name : Str) : Classification :=
  match rules with
  | [] =>
    { category := str "Other", signal_type := str "Single-End",
      rule_matched := str "default", priority := 999 }
  | (rule_name, rule_config) :: rest =>
    if matches_rule net_name rule_config then
      { category := rule_config.category.getD (str "Unknown"),
        signal_type := rule_config.signal_type.getD (str "Single-End"),
        rule_matched := rule_name,
        priority := rule_config.priority.getD 100 }
    else classify_single_net rest net_name

/-- Model of `NetClassifier.classify`: classify every net of the list. -/
def classify (rules : List (Str × RuleConfig)) (net_names : List Str) :
    List (Str × Classification) :=
  net_names.map (fun n => (n, classify_single_net rules n))

/-! ## RuleEngine (`src/core`) -/

/-- Python `d.get(k)` on an insertion-ordered dict modelled as an
association list. -/
def dictGet (m : List (Str × α)) (k : Str) : Option α :=
  (m.find? (fun p => p.1 == k)).map Prod.snd

/-- One layout-rule configuration dict, with `Option` for the fields the
engine reads through `rule_config.get(key, default)`. -/
structure LayoutRuleCfg where
  impedance : Option Str := none
  description : Option Str := none
  width : Option Str := none
  length_limit : Option Str := none
  spacing : Option Str := none
  via_rules : Option Str := none
  layer_stack : Option Str := none
  shielding : Option Str := none
  notes : Option Str := none
deriving DecidableEq

/-- The fixed category → layout-rule-key table of
`RuleEngine._find_applicable_rule`. -/
def category_mappings : List (Str × Str) :=
  [(str "Communication Interface", str "I2C"),
   (str "High Speed Interface", str "PCIe"),
   (str "RF", str "RF"),
   (str "Power", str "Power")]

/-- Model of `RuleEngine._find_applicable_rule`: first the rule keyed by the signal
type; else the rule keyed by the mapped category (the code's
`if mapped_type and mapped_type in self.layout_rules` — every value of the
table is a non-empty string, so the truthiness test is `isSome`); else
`layout_rules.get` with the key `Default`, giving the empty dict when
that key is absent. -/
def find_applicable_rule (layout_rules : List (Str × LayoutRuleCfg))
    (signal_type category : Str) : LayoutRuleCfg :=
  match dictGet layout_rules signal_type with
  | some rule => rule
  | none =>
    match (dictGet category_mappings category).bind (fun mapped_type => dictGet layout_rules mapped_type) with
    | some rule => rule
    | none => (dictGet layout_rules (str "Default")).getD {}

/-- The layout-information dict built by `RuleEngine._apply_single_rule`. -/
structure LayoutInfo where
  net_name : Str
  category : Str
  signal_type : Str
  rule_matched : Str
  impedance : Str
  description : Str
  width : Str
  length_limit : Str
  spacing : Str
  via_rules : Str
  layer_stack : Str
  shielding : Str
  pin_assignment : Str
  notes : Str
  priority : Int
deriving DecidableEq

/-- Model of `RuleEngine._apply_single_rule`: resolve the layout rule for the net's
classification and merge it with the classification. The classification
dict produced by `_classify_single_net` always carries all four keys, so
its `.get(key, default)` reads are the plain fields here. -/
def apply_single_rule (layout_rules : List (Str × LayoutRuleCfg))
    (net_name : Str) (classification : Classification) : LayoutInfo :=
  let signal_type := classification.signal_type
  let category := classification.category
  let rule_config := find_applicable_rule layout_rules signal_type category
  { net_name := net_name,
    category := category,
    signal_type := signal_type,
    rule_matched := classification.rule_matched,
    impedance := rule_config.impedance.getD (str "50 Ohm"),
    description := rule_config.description.getD (str "General purpose signal"),
    width := rule_config.width.getD (str "TBD"),
    length_limit := rule_config.length_limit.getD (str "TBD"),
    spacing := rule_config.spacing.getD (str "TBD"),
    via_rules := rule_config.via_rules.getD (str "Standard"),
    layer_stack := rule_config.layer_stack.getD (str "Any"),
    shielding := rule_config.shielding.getD (str "Optional"),
    pin_assignment := str "TBD",
    notes := rule_config.notes.getD (str ""),
    priority := classification.priority }

/-! ## NetlistParser (`src/core`)

The file-reading half of `parse` is external I/O; the content-level
transform (extract, filter, deduplicate, sort) is embedded. -/

/-- Python whitespace, as used by `str.strip()` and no-argument
`str.split()`. -/
def pySpace (c : Char) : Bool :=
  c == ' ' || c == '\t' || c == '\n' || c == '\r' || c == '\x0b' || c == '\x0c'

/-- Helper for `splitLines`; `acc` holds the current line reversed. -/
def splitLinesAux (acc : Str) : Str → List Str
  | [] => if acc.isEmpty then [] else [acc.reverse]
  | '\r' :: '\n' :: rest => acc.reverse :: splitLinesAux [] rest
  | '\r' :: rest => acc.reverse :: splitLinesAux [] rest
  | '\n' :: rest => acc.reverse :: splitLinesAux [] rest
  | c :: rest => splitLinesAux (c :: acc) rest

/-- Python `content.splitlines()` for the line endings `\n`, `\r`, `\r\n`:
a terminator ends a line and a trailing terminator adds no empty line. -/
def splitLines (content : Str) : List Str := splitLinesAux [] content

/-- Python `line.strip()`. -/
def pyStrip (s : Str) : Str :=
  ((s.dropWhile pySpace).reverse.dropWhile pySpace).reverse

/-- Helper for `splitWs`; `acc` holds the current token reversed. -/
def splitWsAux (acc : Str) : Str → List Str
  | [] => if acc.isEmpty then [] else [acc.reverse]
  | c :: rest =>
    if pySpace c then
      if acc.isEmpty then splitWsAux [] rest else acc.reverse :: splitWsAux [] rest
    else splitWsAux (c :: acc) rest

/-- Python no-argument `line.split()`: split on runs of whitespace,
producing no empty tokens. -/
def splitWs (s : Str) : List Str := splitWsAux [] s

/-- Excluded shape `^[a-zA-Z][0-9]+$` under `re.fullmatch` with IGNORECASE: one ASCII
letter followed by one or more digits (component references like R123). -/
def matchesComponentRef (word : Str) : Bool :=
  match word with
  | c :: d :: rest => c.isAlpha && (d :: rest).all Char.isDigit
  | _ => false

/-- Excluded shape `^[0-9]+$` under `re.fullmatch` with IGNORECASE: one or more digits. -/
def matchesPureNumber (word : Str) : Bool :=
  !word.isEmpty && word.all Char.isDigit

/-- Excluded shape `^[0-9]+(ohm|f|h)$` under `re.fullmatch` with IGNORECASE: digits then a
unit. No unit letter is a digit, so a full match splits exactly at the
maximal digit prefix. -/
def matchesValueUnit (word : Str) : Bool :=
  let digits := word.takeWhile Char.isDigit
  let unit := word.dropWhile Char.isDigit
  !digits.isEmpty &&
    (pyLower unit == str "ohm" || pyLower unit == str "f" || pyLower unit == str "h")

/-- Model of `NetlistParser._is_excluded_word`: the word fully matches one of the
three `excluded_patterns`. -/
def is_excluded_word (word : Str) : Bool :=
  matchesComponentRef word || matchesPureNumber word || matchesValueUnit word

/-- The per-line body of `NetlistParser._extract_net_names`: strip; skip
empty and `*`/`#` comment lines; on a line whose first character is a
digit, the second whitespace-separated token is the candidate, kept when
non-empty and not excluded. -/
def line_candidate (raw_line : Str) : Option Str :=
  let line := pyStrip raw_line
  if line.isEmpty then none
  else if line.head? == some '*' || line.head? == some '#' then none
  else if (line.head?.map Char.isDigit).getD false then
    match splitWs line with
    | _ :: potential_net :: _ =>
      if !potential_net.isEmpty && !is_excluded_word potential_net then some potential_net
      else none
    | _ => none
  else none

/-- Model of `NetlistParser._extract_net_names` over whole content. -/
def extract_net_names (content : Str) : List Str :=
  (splitLines content).filterMap line_candidate

/-- Model of `NetlistParser._filter_excluded_names`. -/
def filter_excluded_names (names : List Str) : List Str :=
  names.filter (fun name => !is_excluded_word name)

/-- The content-level part of `NetlistParser.parse`:
`sorted(list(set(filtered_names)))`, i.e. the ≤-sorted duplicate-free
enumeration of the surviving candidates, computed as an insertion sort of
the deduplicated list. -/
def parse_content (content : Str) : List Str :=
  List.insertionSort (fun a b : Str => a ≤ b)
    (filter_excluded_names (extract_net_names content)).dedup

/-! ## TemplateMapper (`src/core`)

The mapper builds a pandas `DataFrame` from a list of row dicts, sorts it
with `df.sort_values` on the labels `priority` and `net_name`, and
reorders the columns.
The pandas behaviour needed here: the frame's columns are the union of the
row-dict keys in first-seen order (`pd.DataFrame([])` has no columns), and
`sort_values(by)` resolves the labels of `by` in order, raising `KeyError`
at the first label that is neither a column nor a named index level (the
default `RangeIndex` has no name). `map_to_template` wraps any exception
in a `TemplateMappingError`; `Except.error k` models that error wrapping
`KeyError(k)`. -/

/-- A cell of the output table: the row dicts hold strings plus the integer
`priority` column. -/
inductive Cell where
  | s (v : Str)
  | n (v : Int)
deriving DecidableEq

/-- One row dict, with its insertion-ordered keys. -/
abbrev Row := List (Str × Cell)

/-- The layout-data dict for one net, as `_convert_to_dataframe_format`
reads it: every field through `net_info.get(key, default)`. -/
structure NetInfo where
  category : Option Str := none
  pin_assignment : Option Str := none
  description : Option Str := none
  impedance : Option Str := none
  signal_type : Option Str := none
  width : Option Str := none
  length_limit : Option Str := none
  spacing : Option Str := none
  shielding : Option Str := none
  layer_stack : Option Str := none
  notes : Option Str := none
  priority : Option Int := none
deriving DecidableEq

/-- The `row_data` dict built for one net by
`TemplateMapper._convert_to_dataframe_format`. -/
def row_of (net_name : Str) (net_info : NetInfo) : Row :=
  [(str "Category", .s (net_info.category.getD (str "Other"))),
   (str "Net Name", .s net_name),
   (str "Pin (MT7921)", .s (net_info.pin_assignment.getD (str "TBD"))),
   (str "Description", .s (net_info.description.getD (str ""))),
   (str "Impedance", .s (net_info.impedance.getD (str "50 Ohm"))),
   (str "Type", .s (net_info.signal_type.getD (str "Single-End"))),
   (str "Width", .s (net_info.width.getD (str "TBD"))),
   (str "Length Limit (mil)", .s (net_info.length_limit.getD (str "TBD"))),
   (str "Spacing", .s (net_info.spacing.getD (str "TBD"))),
   (str "Shielding", .s (net_info.shielding.getD (str "Optional"))),
   (str "Layer Stack", .s (net_info.layer_stack.getD (str "Any"))),
   (str "Notes", .s (net_info.notes.getD (str ""))),
   (str "priority", .n (net_info.priority.getD 999))]

/-- Model of `TemplateMapper._convert_to_dataframe_format`. -/
def convert_to_dataframe_format (layout_data : List (Str × NetInfo)) : List Row :=
  layout_data.map (fun p => row_of p.1 p.2)

/-- Accumulate the keys of one row dict into the column list. -/
def addRowKeys (cols : List Str) (row : Row) : List Str :=
  row.foldl (fun cs kv => if cs.contains kv.1 then cs else cs ++ [kv.1]) cols

/-- The columns of `pd.DataFrame(rows)` built from a list of row dicts:
the union of the keys in first-seen order. -/
def dfColumns (rows : List Row) : List Str :=
  rows.foldl addRowKeys []

/-- Cell lookup by column label in one row. -/
def rowGet (row : Row) (k : Str) : Option Cell :=
  (row.find? (fun kv => kv.1 == k)).map Prod.snd

/-- Cell comparison used by the sort (the columns here are homogeneous). -/
def cellLe : Cell → Cell → Bool
  | .n a, .n b => decide (a ≤ b)
  | .s a, .s b => decide (a ≤ b)
  | .n _, .s _ => true
  | .s _, .n _ => false

/-- Lexicographic row comparison along the sort keys. -/
def rowLeBy (keys : List Str) (r1 r2 : Row) : Bool :=
  match keys with
  | [] => true
  | k :: rest =>
    match rowGet r1 k, rowGet r2 k with
    | some a, some b => if a == b then rowLeBy rest r1 r2 else cellLe a b
    | _, _ => true

/-- Model of `df.sort_values(by)`: resolve the labels of `by` in order and raise
`KeyError` at the first one that is not a column (no index level is named
here); otherwise sort the rows stably along the keys. -/
def sort_values (rows : List Row) (by_keys : List Str) : Except Str (List Row) :=
  match by_keys.find? (fun k => !(dfColumns rows).contains k) with
  | some k => .error k
  | none => .ok (rows.mergeSort (rowLeBy by_keys))

/-- The `desired_order` list of `TemplateMapper._reorder_columns`. -/
def desired_order : List Str :=
  [str "Category", str "Net Name", str "Pin (MT7921)", str "Description",
   str "Impedance", str "Type", str "Width", str "Length Limit (mil)",
   str "Spacing", str "Shielding", str "Layer Stack", str "Notes"]

/-- Model of `TemplateMapper._reorder_columns`: keep the desired columns that exist,
in the desired order. -/
def reorder_columns (rows : List Row) : List Row :=
  let available_cols := desired_order.filter (fun c => (dfColumns rows).contains c)
  rows.map (fun row => available_cols.filterMap (fun c => (rowGet row c).map (fun v => (c, v))))

/-- The data transform of `TemplateMapper.map_to_template` (the Excel write
of the resulting rows is external I/O): convert, sort by
`priority` then `net_name`, reorder columns; any exception — here the
`KeyError` from `sort_values` — is re-raised as a `TemplateMappingError`
carrying it, modelled by `Except.error`. -/
def map_to_template (layout_data : List (Str × NetInfo)) : Except Str (List Row) :=
  match sort_values (convert_to_dataframe_format layout_data) [str "priority", str "net_name"] with
  | .error k => .error k
  | .ok sorted_rows => .ok (reorder_columns sorted_rows)

/-- The key list every row dict of `_convert_to_dataframe_format` carries:
the twelve display column names plus the helper column `priority`. Note no
key is `net_name`: the net name is stored under `Net Name`. -/
def templateRowKeys : List Str :=
  [str "Category", str "Net Name", str "Pin (MT7921)", str "Description",
   str "Impedance", str "Type", str "Width", str "Length Limit (mil)",
   str "Spacing", str "Shielding", str "Layer Stack", str "Notes",
   str "priority"]

/-! ## Concrete configurations used to instantiate the theorems -/

/-- A disabled rule whose keyword matches `I2C_SCL`. -/
def disabledI2CRule : RuleConfig :=
  { keywords := [str "I2C"],
    category := some (str "Communication Interface"),
    signal_type := some (str "I2C"),
    priority := some 1,
    enabled := some false }

/-- Two enabled rules that both match any net containing `I2C`; the earlier
one carries the larger priority value. -/
def overlapRules : List (Str × RuleConfig) :=
  [(str "BusA", { keywords := [str "I2C"],
                  category := some (str "Communication Interface"),
                  signal_type := some (str "I2C"),
                  priority := some 50 }),
   (str "BusB", { keywords := [str "I2C"],
                  category := some (str "Communication Interface"),
                  signal_type := some (str "I2C"),
                  priority := some 1 })]

/-- A rule whose configuration dict has only matching keys: no `category`,
`signal_type` or `priority`. -/
def bareRule : RuleConfig := { keywords := [str "PWR"] }

/-- A small layout-rule set exercising every branch of the resolution. -/
def demoLayoutRules : List (Str × LayoutRuleCfg) :=
  [(str "I2C", { impedance := some (str "50 Ohm") }),
   (str "PCIe", { impedance := some (str "100 Ohm differential") }),
   (str "Default", { impedance := some (str "75 Ohm") })]

/-! ## Helper lemmas -/

/-- Matching reads only `keywords`, `patterns` and `exact_matches`. -/
theorem matches_rule_congr (net : Str) (rc rc' : RuleConfig)
    (hk : rc.keywords = rc'.keywords) (hp : rc.patterns = rc'.patterns)
    (he : rc.exact_matches = rc'.exact_matches) :
    matches_rule net rc = matches_rule net rc' := by
  simp [matches_rule, hk, hp, he]

/-- The classification of a net whose first matching rule is known. -/
theorem classify_eq_of_find (rules : List (Str × RuleConfig)) (net : Str)
    (rule_name : Str) (rc : RuleConfig)
    (h : rules.find? (fun p => matches_rule net p.2) = some (rule_name, rc)) :
    classify_single_net rules net =
      { category := rc.category.getD (str "Unknown"),
        signal_type := rc.signal_type.getD (str "Single-End"),
        rule_matched := rule_name,
        priority := rc.priority.getD 100 } := by
  induction rules with
  | nil => simp [List.find?] at h
  | cons hd tl ih =>
    obtain ⟨a, b⟩ := hd
    rw [List.find?_cons] at h
    cases hm : matches_rule net b with
    | true =>
      rw [hm] at h
      simp only [Option.some.injEq, Prod.mk.injEq] at h
      obtain ⟨h1, h2⟩ := h
      subst h1; subst h2
      simp [classify_single_net, hm]
    | false =>
      rw [hm] at h
      simp only [classify_single_net, hm, Bool.false_eq_true, if_false]
      exact ih h

/-! ## Claim theorems -/

/-- C1, counterexample. The claim says a rule whose `enabled` flag is false
is skipped and never determines the returned Classification. It is false:
`_classify_single_net` and `_matches_rule` never read `enabled`, so the
disabled rule `disabledI2CRule` (enabled = some false, keyword `I2C`)
matches the net `I2C_SCL` and supplies the whole returned classification. -/
theorem claim_C1_counterexample :
    disabledI2CRule.enabled = some false ∧
    classify_single_net [(str "I2C", disabledI2CRule)] (str "I2C_SCL") =
      { category := str "Communication Interface",
        signal_type := str "I2C",
        rule_matched := str "I2C",
        priority := 1 } :=
  ⟨rfl, by decide⟩

/-- C1, amended: the classifier ignores the `enabled` flag entirely —
changing the `enabled` field of every rule in any way whatsoever (`f`)
leaves every classification unchanged, so a rule with `enabled = false`
participates in matching exactly like an enabled one. -/
theorem claim_C1_amended_enabled_ignored (rules : List (Str × RuleConfig))
    (net : Str) (f : Str × RuleConfig → Option Bool) :
    classify_single_net (rules.map (fun p => (p.1, { p.2 with enabled := f p }))) net =
      classify_single_net rules net := by
  induction rules with
  | nil => rfl
  | cons hd tl ih =>
    obtain ⟨a, b⟩ := hd
    simp only [List.map_cons, classify_single_net]
    rw [show matches_rule net { b with enabled := f (a, b) } = matches_rule net b from rfl]
    cases hm : matches_rule net b with
    | true => simp [hm]
    | false => simpa [hm] using ih

/-- C3: when at least one rule matches, the classifier returns the
classification of the first matching rule in iteration order — category,
signal type and priority filled from that rule (with the `.get` defaults)
and `rule_matched` set to its name — and the `priority` values configured
on the rules play no role in which rule is chosen. -/
theorem claim_C3_first_match_wins (rules : List (Str × RuleConfig)) (net : Str)
    (rule_name : Str) (rc : RuleConfig)
    (h : rules.find? (fun p => matches_rule net p.2) = some (rule_name, rc)) :
    classify_single_net rules net =
      { category := rc.category.getD (str "Unknown"),
        signal_type := rc.signal_type.getD (str "Single-End"),
        rule_matched := rule_name,
        priority := rc.priority.getD 100 } ∧
    ∀ g : Str × RuleConfig → Option Int,
      (classify_single_net (rules.map (fun p => (p.1, { p.2 with priority := g p }))) net).rule_matched
        = rule_name := by
  refine ⟨classify_eq_of_find rules net rule_name rc h, fun g => ?_⟩
  have hfind : (rules.map (fun p => (p.1, { p.2 with priority := g p }))).find?
      (fun p => matches_rule net p.2)
      = some (rule_name, { rc with priority := g (rule_name, rc) }) := by
    induction rules with
    | nil => simp [List.find?] at h
    | cons hd tl ih =>
      obtain ⟨a, b⟩ := hd
      rw [List.find?_cons] at h
      simp only [List.map_cons, List.find?_cons]
      rw [show matches_rule net ({ b with priority := g (a, b) } : RuleConfig)
            = matches_rule net b from rfl]
      cases hm : matches_rule net b with
      | true =>
        rw [hm] at h
        simp only [Option.some.injEq, Prod.mk.injEq] at h
        obtain ⟨h1, h2⟩ := h
        subst h1; subst h2
        rfl
      | false =>
        rw [hm] at h
        exact ih h
  rw [classify_eq_of_find _ net rule_name _ hfind]

/-- C3 witness: both rules of `overlapRules` match `MAIN_I2C_BUS`; the
classifier returns the first one (`BusA`), even though the second has the
smaller priority value, and remapping all priorities does not change the
chosen rule. -/
theorem claim_C3_witness :
    classify_single_net overlapRules (str "MAIN_I2C_BUS") =
      { category := str "Communication Interface",
        signal_type := str "I2C",
        rule_matched := str "BusA",
        priority := 50 } ∧
    (classify_single_net (overlapRules.map (fun p => (p.1, { p.2 with priority := some 7 }))) (str "MAIN_I2C_BUS")).rule_matched = str "BusA" := by
  have h := claim_C3_first_match_wins overlapRules (str "MAIN_I2C_BUS")
    (str "BusA")
    { keywords := [str "I2C"],
      category := some (str "Communication Interface"),
      signal_type := some (str "I2C"),
      priority := some 50 }
    (by rfl)
  exact ⟨h.1, h.2 (fun _ => some 7)⟩

/-- C4: a net name matching no configured rule gets exactly the default
classification: category `Other`, signal type `Single-End`, priority 999,
`rule_matched` `default`. -/
theorem claim_C4_default_classification (rules : List (Str × RuleConfig)) (net : Str)
    (h : ∀ p ∈ rules, matches_rule net p.2 = false) :
    classify_single_net rules net =
      { category := str "Other", signal_type := str "Single-End",
        rule_matched := str "default", priority := 999 } := by
  induction rules with
  | nil => rfl
  | cons hd tl ih =>
    obtain ⟨a, b⟩ := hd
    have hb : matches_rule net b = false := h (a, b) (List.mem_cons_self _ _)
    simp only [classify_single_net, hb, Bool.false_eq_true, if_false]
    exact ih (fun p hp => h p (List.mem_cons_of_mem _ hp))

/-- C4 witness: `VBAT` matches neither of the two overlapping I2C rules and
gets the default classification. -/
theorem claim_C4_witness :
    classify_single_net overlapRules (str "VBAT") =
      { category := str "Other", signal_type := str "Single-End",
        rule_matched := str "default", priority := 999 } :=
  claim_C4_default_classification overlapRules (str "VBAT") (by decide)

/-- C7: a pattern whose compilation raises `re.error` is skipped — deleting
all such patterns from every rule changes no classification, so a bad
pattern aborts nothing: the remaining patterns, the exact-match checks and
the later rules still decide the net, and a Classification is returned
(the embedding is total). -/
theorem claim_C7_bad_pattern_skipped (rules : List (Str × RuleConfig)) (net : Str) :
    classify_single_net rules net =
      classify_single_net
        (rules.map (fun p => (p.1, { p.2 with patterns := p.2.patterns.filter (fun q => ! q.isErr) }))) net := by
  have hok : ∀ m : Str → Bool, (RePattern.ok m).isErr = false := fun _ => rfl
  have herr : RePattern.err.isErr = true := rfl
  have hse : RePattern.search net RePattern.err = false := rfl
  have hany : ∀ ps : List RePattern,
      (ps.filter (fun q => ! q.isErr)).any (fun p => p.search net)
        = ps.any (fun p => p.search net) := by
    intro ps
    induction ps with
    | nil => rfl
    | cons q t ih =>
      cases q with
      | ok m =>
        simp only [List.filter_cons, hok, Bool.not_false, if_true, List.any_cons, ih]
      | err =>
        simp only [List.filter_cons, herr, Bool.not_true, Bool.false_eq_true, if_false,
          List.any_cons, hse, Bool.false_or, ih]
  induction rules with
  | nil => rfl
  | cons hd tl ih =>
    obtain ⟨a, b⟩ := hd
    simp only [List.map_cons, classify_single_net]
    have hmr : matches_rule net { b with patterns := b.patterns.filter (fun q => ! q.isErr) }
        = matches_rule net b := by
      simp only [matches_rule, hany]
    rw [hmr]
    cases hm : matches_rule net b with
    | true => simp [hm]
    | false => simpa [hm] using ih

/-- C10: when the first matching rule's configuration omits `priority`, the
resulting classification carries priority 100 (not the no-match 999);
an omitted `category` yields `Unknown` and an omitted `signal_type` yields
`Single-End`. -/
theorem claim_C10_matched_rule_defaults (rules : List (Str × RuleConfig)) (net : Str)
    (rule_name : Str) (rc : RuleConfig)
    (h : rules.find? (fun p => matches_rule net p.2) = some (rule_name, rc)) :
    (rc.priority = none → (classify_single_net rules net).priority = 100) ∧
    (rc.category = none → (classify_single_net rules net).category = str "Unknown") ∧
    (rc.signal_type = none → (classify_single_net rules net).signal_type = str "Single-End") := by
  rw [classify_eq_of_find rules net rule_name rc h]
  refine ⟨fun hp => ?_, fun hc => ?_, fun hs => ?_⟩
  · simp [hp]
  · simp [hc]
  · simp [hs]

/-- C10 witness: `bareRule` (keyword `PWR`, no category / signal_type /
priority keys) matches `PWR_EN`, and the classification carries the
matched-rule defaults 100 / `Unknown` / `Single-End`. -/
theorem claim_C10_witness :
    (classify_single_net [(str "Power", bareRule)] (str "PWR_EN")).priority = 100 ∧
    (classify_single_net [(str "Power", bareRule)] (str "PWR_EN")).category = str "Unknown" ∧
    (classify_single_net [(str "Power", bareRule)] (str "PWR_EN")).signal_type = str "Single-End" := by
  have h := claim_C10_matched_rule_defaults [(str "Power", bareRule)] (str "PWR_EN")
    (str "Power") bareRule (by rfl)
  exact ⟨h.1 rfl, h.2.1 rfl, h.2.2 rfl⟩

/-- C5: no token fully matching `^[A-Za-z][0-9]+$`, `^[0-9]+$` or
`^[0-9]+(ohm|f|h)$` (case-insensitive) ever appears in the parser's output,
wherever it occurs in the netlist text. -/
theorem claim_C5_exclusion_invariant (content : Str) (tok : Str)
    (h : (matchesComponentRef tok || matchesPureNumber tok || matchesValueUnit tok) = true) :
    tok ∉ parse_content content := by
  intro hmem
  rw [parse_content] at hmem
  have hperm := List.perm_insertionSort (fun a b : Str => a ≤ b)
    (filter_excluded_names (extract_net_names content)).dedup
  rw [hperm.mem_iff, List.mem_dedup, filter_excluded_names, List.mem_filter] at hmem
  have hkeep := hmem.2
  have hexc : is_excluded_word tok = true := h
  rw [hexc] at hkeep
  simp at hkeep

/-- C5 witness: the component reference `R123` occurs as the second token
of a data line, yet never appears in the output. -/
theorem claim_C5_witness :
    str "R123" ∉ parse_content (str "1 R123 NETX\n2 I2C_SCL R9\n") :=
  claim_C5_exclusion_invariant _ _ (by decide)

/-- C9: the parser's output is always sorted (strictly, hence
duplicate-free) and consists exactly of the surviving candidates; on the
round-trip input `"1 I2C_SCL R123 C456\n2 SPI_MOSI R234 C567\n"` it is
exactly `["I2C_SCL", "SPI_MOSI"]`. -/
theorem claim_C9_sorted_unique_output :
    (∀ content : Str,
      List.Sorted (· < ·) (parse_content content) ∧
      ∀ tok : Str, tok ∈ parse_content content ↔
        tok ∈ filter_excluded_names (extract_net_names content)) ∧
    parse_content (str "1 I2C_SCL R123 C456\n2 SPI_MOSI R234 C567\n")
      = [str "I2C_SCL", str "SPI_MOSI"] := by
  constructor
  · intro content
    have hperm := List.perm_insertionSort (fun a b : Str => a ≤ b)
      (filter_excluded_names (extract_net_names content)).dedup
    constructor
    · have hle : List.Sorted (fun a b : Str => a ≤ b) (parse_content content) :=
        List.sorted_insertionSort _ _
      have hnd : (parse_content content).Nodup :=
        hperm.symm.nodup (List.nodup_dedup _)
      exact hle.lt_of_le hnd
    · intro tok
      rw [parse_content, hperm.mem_iff, List.mem_dedup]
  · decide

/-- C6: the layout rule for a classified net is resolved in this exact
precedence — (1) the rule keyed by the net's signal type; (2) else the rule
keyed by the category mapped through the fixed table; (3) else the rule
keyed `Default`; (4) else the hardcoded per-field fallbacks, visible on the
merged layout record. -/
theorem claim_C6_rule_resolution_precedence
    (layout_rules : List (Str × LayoutRuleCfg)) (net : Str) (cl : Classification) :
    (∀ rc, dictGet layout_rules cl.signal_type = some rc →
      find_applicable_rule layout_rules cl.signal_type cl.category = rc) ∧
    (dictGet layout_rules cl.signal_type = none →
      ∀ mapped_type rc, dictGet category_mappings cl.category = some mapped_type →
        dictGet layout_rules mapped_type = some rc →
        find_applicable_rule layout_rules cl.signal_type cl.category = rc) ∧
    (dictGet layout_rules cl.signal_type = none →
      (dictGet category_mappings cl.category).bind (fun mt => dictGet layout_rules mt) = none →
      ∀ rc, dictGet layout_rules (str "Default") = some rc →
        find_applicable_rule layout_rules cl.signal_type cl.category = rc) ∧
    (dictGet layout_rules cl.signal_type = none →
      (dictGet category_mappings cl.category).bind (fun mt => dictGet layout_rules mt) = none →
      dictGet layout_rules (str "Default") = none →
      (apply_single_rule layout_rules net cl).impedance = str "50 Ohm" ∧
      (apply_single_rule layout_rules net cl).description = str "General purpose signal" ∧
      (apply_single_rule layout_rules net cl).width = str "TBD" ∧
      (apply_single_rule layout_rules net cl).length_limit = str "TBD" ∧
      (apply_single_rule layout_rules net cl).spacing = str "TBD" ∧
      (apply_single_rule layout_rules net cl).via_rules = str "Standard" ∧
      (apply_single_rule layout_rules net cl).layer_stack = str "Any" ∧
      (apply_single_rule layout_rules net cl).shielding = str "Optional") := by
  refine ⟨fun rc h1 => ?_, fun h0 mapped_type rc h1 h2 => ?_, fun h0 h1 rc h2 => ?_,
    fun h0 h1 h2 => ?_⟩
  · simp [find_applicable_rule, h1]
  · simp [find_applicable_rule, h0, h1, h2]
  · simp [find_applicable_rule, h0, h1, h2]
  · have hf : find_applicable_rule layout_rules cl.signal_type cl.category = {} := by
      simp [find_applicable_rule, h0, h1, h2]
    refine ⟨?_, ?_, ?_, ?_, ?_, ?_, ?_, ?_⟩ <;>
      simp [apply_single_rule, hf]

/-- C6 witness: with `demoLayoutRules` (keys `I2C`, `PCIe`, `Default`) each
of the four precedence levels is exercised at a concrete classification. -/
theorem claim_C6_witness :
    find_applicable_rule demoLayoutRules (str "I2C") (str "Other")
      = { impedance := some (str "50 Ohm") } ∧
    find_applicable_rule demoLayoutRules (str "Diff") (str "High Speed Interface")
      = { impedance := some (str "100 Ohm differential") } ∧
    find_applicable_rule demoLayoutRules (str "Diff") (str "Other")
      = { impedance := some (str "75 Ohm") } ∧
    (apply_single_rule [] (str "NETX")
      { category := str "Other", signal_type := str "Single-End",
        rule_matched := str "default", priority := 999 }).impedance = str "50 Ohm" := by
  refine ⟨?_, ?_, ?_, ?_⟩
  · exact (claim_C6_rule_resolution_precedence demoLayoutRules (str "NETX")
      { category := str "Other", signal_type := str "I2C",
        rule_matched := str "r", priority := 1 }).1 _ (by decide)
  · exact (claim_C6_rule_resolution_precedence demoLayoutRules (str "NETX")
      { category := str "High Speed Interface", signal_type := str "Diff",
        rule_matched := str "r", priority := 1 }).2.1 (by decide) (str "PCIe")
      { impedance := some (str "100 Ohm differential") } (by decide) (by decide)
  · exact (claim_C6_rule_resolution_precedence demoLayoutRules (str "NETX")
      { category := str "Other", signal_type := str "Diff",
        rule_matched := str "r", priority := 1 }).2.2.1 (by decide) (by decide) _ (by decide)
  · exact ((claim_C6_rule_resolution_precedence [] (str "NETX")
      { category := str "Other", signal_type := str "Single-End",
        rule_matched := str "default", priority := 999 }).2.2.2 (by decide) (by decide) (by decide)).1

/-- Folding a plain key list into the column accumulator, the key-level
view of `addRowKeys`. -/
def addKeysList (cols : List Str) (ks : List Str) : List Str :=
  ks.foldl (fun cs k => if cs.contains k then cs else cs ++ [k]) cols

/-- The fold `addRowKeys` inspects only the keys of a row, and every row built by
`_convert_to_dataframe_format` has the keys `templateRowKeys`. -/
theorem addRowKeys_row_of (cols : List Str) (net_name : Str) (net_info : NetInfo) :
    addRowKeys cols (row_of net_name net_info) = addKeysList cols templateRowKeys := rfl

/-- Seeding the columns with one row's keys. -/
theorem addKeysList_nil : addKeysList [] templateRowKeys = templateRowKeys := by decide

/-- Re-adding the same keys changes nothing. -/
theorem addKeysList_self : addKeysList templateRowKeys templateRowKeys = templateRowKeys := by
  decide

/-- Every row contributes the same key set, so the accumulated columns stay
`templateRowKeys` once reached. -/
theorem foldl_addRowKeys_fixed (layout_data : List (Str × NetInfo)) :
    layout_data.foldl (fun cols p => addRowKeys cols (row_of p.1 p.2)) templateRowKeys
      = templateRowKeys := by
  induction layout_data with
  | nil => rfl
  | cons hd tl ih =>
    rw [List.foldl_cons, addRowKeys_row_of, addKeysList_self, ih]

/-- The columns of the frame built from a non-empty layout mapping are
exactly `templateRowKeys`. -/
theorem dfColumns_convert_cons (net_name : Str) (net_info : NetInfo)
    (rest : List (Str × NetInfo)) :
    dfColumns (convert_to_dataframe_format ((net_name, net_info) :: rest))
      = templateRowKeys := by
  rw [convert_to_dataframe_format, List.map_cons, dfColumns, List.foldl_cons,
    addRowKeys_row_of, addKeysList_nil, List.foldl_map]
  exact foldl_addRowKeys_fixed rest

/-- C2: the claim says `map_to_template` on an empty layout mapping
succeeds with zero rows. The code instead raises: `pd.DataFrame([])` has no
columns, so sorting it by `priority` and `net_name` raises a `KeyError`
for `priority`, which `map_to_template` re-raises as a
`TemplateMappingError`. -/
theorem claim_C2_empty_input_raises :
    map_to_template [] = Except.error (str "priority") := rfl

/-- C8: the claim says the rows for a non-empty layout mapping come out
sorted by priority then net name. The code never produces rows at all:
the sort names a column `net_name` that the frame does not have (its
columns are `templateRowKeys`, with the net name under `Net Name`), so
every non-empty input raises a `KeyError` for `net_name`, wrapped in a
`TemplateMappingError`. -/
theorem claim_C8_sort_raises_keyerror (net_name : Str) (net_info : NetInfo)
    (rest : List (Str × NetInfo)) :
    map_to_template ((net_name, net_info) :: rest) = Except.error (str "net_name") := by
  have hcols := dfColumns_convert_cons net_name net_info rest
  have hsorted : sort_values (convert_to_dataframe_format ((net_name, net_info) :: rest))
      [str "priority", str "net_name"] = Except.error (str "net_name") := by
    rw [sort_values, hcols]
    rfl
  rw [map_to_template, hsorted]

end ImpedanceGuide
